import Mathlib

/-!
# Verification of the mcp-agents context routing and agent dispatch layer

Shallow embedding of the TypeScript sources of `MyCryptoProtocol/mcp-agents`:

* `src/nlp/instruction-parser.ts` — `parseInstruction` (keyword / regex matching);
* `src/context-router.ts` — `ContextRouter` (registry, capability and type
  queries, permission check, request routing, declarative-file loading);
* `src/agents/solana-defi-agent.ts` and `src/agents/nft-market-agent.ts` —
  the two agents' `processInstruction` dispatch and error taxonomy.

JavaScript strings are modelled over `List Char` / `String`; the JS `Map` is
modelled as an association list with JS insertion-order semantics
(`Map.set` replaces the value in place, `values()` iterates in insertion
order).  Promise rejection / thrown exceptions are modelled with `Except`.
Wall-clock timestamps (`new Date().toISOString()`) are passed in as an
explicit `now` argument where a claim-relevant value carries one, and
IEEE-754-formatting-derived display fields are kept out of the model
(no claim touches them).  Console logging side effects are ignored.
-/

/-! ## JavaScript string primitives

`toLowerCase`, `trim`, `includes` and the four regular expressions used by
`parseInstruction`, modelled over `List Char` (ASCII semantics; the source
only ever matches ASCII keywords and `\w`, `\d`, `\s` classes). -/

/-- JS `String.prototype.toLowerCase` on one character (ASCII range, which is
all the source's keyword matching relies on). -/
def jsLowerChar (c : Char) : Char :=
  if 65 ≤ c.toNat ∧ c.toNat ≤ 90 then Char.ofNat (c.toNat + 32) else c

/-- Whitespace as used by JS `trim` and the regex class `\s` (ASCII subset). -/
def isWsChar (c : Char) : Bool :=
  c = ' ' || c = '\t' || c = '\n' || c = '\r' || c = '\x0b' || c = '\x0c'

/-- The regex word class `\w` = `[A-Za-z0-9_]`. -/
def isWordChar (c : Char) : Bool :=
  c.isAlphanum || c = '_'

/-- The regex digit class `\d` = `[0-9]`. -/
def isDigitChar (c : Char) : Bool :=
  c.isDigit

/-- JS `toLowerCase` on a character list. -/
def lowerL (l : List Char) : List Char :=
  l.map jsLowerChar

/-- JS `trim` on a character list: strip leading and trailing whitespace. -/
def trimL (l : List Char) : List Char :=
  ((l.dropWhile isWsChar).reverse.dropWhile isWsChar).reverse

/-- JS `s.toLowerCase()` on a `String`. -/
def jsToLower (s : String) : String :=
  String.mk (lowerL s.data)

/-- JS `s.trim()` on a `String`. -/
def jsTrim (s : String) : String :=
  String.mk (trimL s.data)

/-- Substring containment over character lists (structural, so concrete
instances evaluate by kernel reduction). -/
def listContains : List Char → List Char → Bool
  | [], sub => sub.isEmpty
  | c :: t, sub => sub.isPrefixOf (c :: t) || listContains t sub

/-- JS `s.includes(sub)`: substring containment. -/
def jsIncludes (s sub : String) : Bool :=
  listContains s.data sub.data

/-- JS `s.endsWith(suffix)`. -/
def jsEndsWith (s suffix : String) : Bool :=
  suffix.data.isSuffixOf s.data

/-! ### A matcher for the source's four regular expressions

The patterns are `from\s+(\w+)`, `to\s+(\w+)`, `(\d+(\.\d+)?)\s+(\w+)`,
`pool\s+(\w+)` and `price\s+of\s+(\w+)`: sequences of literals, `\s+` and
the two capture shapes.  Because each adjacent pair of greedy pieces draws
from disjoint character classes (digits / `.` / whitespace / word chars,
with every literal starting in a non-matching class for its predecessor),
greedy matching without backtracking computes exactly the JS result, and
trying start positions left to right gives JS's leftmost-match rule. -/

/-- One piece of a regex: a literal, `\s+`, a `(\w+)` capture, or a
`(\d+(\.\d+)?)` capture. -/
inductive RegexPiece
  | lit (cs : List Char)
  | ws
  | word
  | num
deriving DecidableEq, Repr

/-- The fractional part accepted by `(\.\d+)?` at the front of `s`
(empty when absent). -/
def numFracPart (s : List Char) : List Char :=
  match s with
  | '.' :: r =>
    let d := r.takeWhile isDigitChar
    if d.isEmpty then [] else '.' :: d
  | _ => []

/-- Match a piece sequence anchored at the start of `s`; returns the capture
list on success. -/
def matchPiecesAt : List RegexPiece → List Char → Option (List (List Char))
  | [], _ => some []
  | .lit cs :: ps, s =>
    if cs.isPrefixOf s then matchPiecesAt ps (s.drop cs.length) else none
  | .ws :: ps, s =>
    let w := s.takeWhile isWsChar
    if w.isEmpty then none else matchPiecesAt ps (s.drop w.length)
  | .word :: ps, s =>
    let w := s.takeWhile isWordChar
    if w.isEmpty then none
    else (matchPiecesAt ps (s.drop w.length)).map (w :: ·)
  | .num :: ps, s =>
    let d := s.takeWhile isDigitChar
    if d.isEmpty then none
    else
      let cap := d ++ numFracPart (s.drop d.length)
      (matchPiecesAt ps (s.drop cap.length)).map (cap :: ·)

/-- JS `String.prototype.match` (no `g` flag): try every start position from
the left, returning the first match's captures. -/
def scanMatch (ps : List RegexPiece) : List Char → Option (List (List Char))
  | [] => matchPiecesAt ps []
  | c :: t =>
    match matchPiecesAt ps (c :: t) with
    | some caps => some caps
    | none => scanMatch ps t

/-- Capture group 1 of a match result (`m[1]` in JS), as a `String`. -/
def capture1 (r : Option (List (List Char))) : Option String :=
  match r with
  | some (c :: _) => some (String.mk c)
  | _ => none

/-! ## `src/nlp/instruction-parser.ts` -/

/-- A parameter value in a parsed instruction's `params` record: the source
stores strings and the one numeric literal `slippageBps: 50`. -/
inductive ParamValue
  | str (s : String)
  | nat (n : Nat)
deriving DecidableEq, Repr

/-- `ParsedInstruction` from `instruction-parser.ts`; `params` is the JS
object as a field list, and `confidence` (0.85 etc.) is represented in
hundredths (85 etc.) to stay in exact arithmetic. -/
structure ParsedInstruction where
  action : String
  params : List (String × ParamValue)
  confidencePct : Nat
deriving DecidableEq, Repr

/-- Body of `parseInstruction` after the initial
`instruction = instruction.toLowerCase().trim()` reassignment (factored out
so the normalisation is a single explicit composition). -/
def parseInstructionCore (instruction : String) : ParsedInstruction :=
  if jsIncludes instruction "swap" || jsIncludes instruction "exchange" ||
      jsIncludes instruction "trade" then
    let sourceTokenMatch := scanMatch [.lit "from".data, .ws, .word] instruction.data
    let targetTokenMatch := scanMatch [.lit "to".data, .ws, .word] instruction.data
    let amountMatch := scanMatch [.num, .ws, .word] instruction.data
    { action := "swap"
      params :=
        [("sourceToken", .str ((capture1 sourceTokenMatch).getD "SOL")),
         ("targetToken", .str ((capture1 targetTokenMatch).getD "USDC")),
         ("amount", .str ((capture1 amountMatch).getD "1.0")),
         ("slippageBps", .nat 50)]
      confidencePct := 85 }
  else if jsIncludes instruction "add liquidity" ||
      jsIncludes instruction "provide liquidity" then
    let poolMatch := scanMatch [.lit "pool".data, .ws, .word] instruction.data
    { action := "addLiquidity"
      params :=
        [("poolId", .str ((capture1 poolMatch).getD "default")),
         ("tokenA", .str "SOL"),
         ("amountA", .str "1.0"),
         ("tokenB", .str "USDC"),
         ("amountB", .str "10.0")]
      confidencePct := 80 }
  else if jsIncludes instruction "price" || jsIncludes instruction "value" ||
      jsIncludes instruction "worth" then
    let tokenMatch :=
      scanMatch [.lit "price".data, .ws, .lit "of".data, .ws, .word] instruction.data
    { action := "checkPrice"
      params := [("token", .str ((capture1 tokenMatch).getD "SOL"))]
      confidencePct := 90 }
  else
    { action := "unknown", params := [], confidencePct := 30 }

/-- `parseInstruction` from `instruction-parser.ts` (the `async` wrapper is
pure: the body performs no awaits and reads no external state). -/
def parseInstruction (instruction : String) : ParsedInstruction :=
  parseInstructionCore (jsTrim (jsToLower instruction))

/-! ## `src/context-router.ts` — data model -/

/-- `ContextType` enum from `context-router.ts`. -/
inductive ContextType
  | DEX
  | NFT_MARKETPLACE
  | ORACLE
  | GOVERNANCE
  | SOCIAL
  | IDENTITY
  | STORAGE
deriving DecidableEq, Repr

/-- `ContextDefinition` interface from `context-router.ts`; the free-form
`schema` record is carried as a field list of key / type-name pairs. -/
structure ContextDefinition where
  id : String
  name : String
  description : String
  ctype : ContextType
  capabilities : List String
  endpoint : Option String
  pubkey : Option String
  authRequired : Bool
  schema : Option (List (String × String))
deriving DecidableEq, Repr

/-- The router's `contexts : Map<string, ContextDefinition>` as an
association list in insertion order. -/
def ContextMap : Type := List (String × ContextDefinition)

instance : DecidableEq ContextMap := by
  unfold ContextMap
  infer_instance

/-- The empty `Map` (router construction). -/
def emptyContexts : ContextMap := []

/-- `Map.prototype.set`: replace the value of an existing key in place
(keeping its insertion position) or append a new entry at the end. -/
def mapSet : ContextMap → String → ContextDefinition → ContextMap
  | [], k, v => [(k, v)]
  | (k₀, v₀) :: rest, k, v =>
    if k₀ = k then (k, v) :: rest else (k₀, v₀) :: mapSet rest k v

/-- `Map.prototype.get` (`undefined` becomes `none`). -/
def mapGet (m : ContextMap) (k : String) : Option ContextDefinition :=
  match m with
  | [] => none
  | (k₀, v₀) :: rest => if k₀ = k then some v₀ else mapGet rest k

/-- `Map.prototype.has`. -/
def mapHas (m : ContextMap) (k : String) : Bool :=
  (mapGet m k).isSome

/-- `Map.prototype.values()` in insertion order. -/
def mapValues (m : ContextMap) : List ContextDefinition :=
  m.map Prod.snd

/-- Number of entries stored under a key (the JS `Map` keeps this at most 1;
used to state the registry invariant). -/
def countKey (m : ContextMap) (k : String) : Nat :=
  m.countP (fun p => p.1 = k)

/-! ## `src/context-router.ts` — operations -/

/-- `ContextRouter.registerContext`: `this.contexts.set(context.id, context)`.
The duplicate-id warning is a console side effect with no further
behaviour, so it is dropped from the model. -/
def registerContext (m : ContextMap) (context : ContextDefinition) : ContextMap :=
  mapSet m context.id context

/-- `ContextRouter.findContextsByCapabilities`: keep every registered
definition for which all requested capabilities are matched
case-insensitively by some declared capability. -/
def findContextsByCapabilities (m : ContextMap) (capabilities : List String) :
    List ContextDefinition :=
  (mapValues m).filter (fun context =>
    capabilities.all (fun cap =>
      context.capabilities.any (fun contextCap =>
        jsToLower contextCap = jsToLower cap)))

/-- `ContextRouter.findContextsByType`. -/
def findContextsByType (m : ContextMap) (t : ContextType) :
    List ContextDefinition :=
  (mapValues m).filter (fun context => context.ctype = t)

deriving instance DecidableEq for Except

/-- The router's view of an agent: its display name, the outcome of
`await agent.getState()` (either a rejection message or the state's
`agentId` string — the only field the router reads), and whether
`new PublicKey(agentId)` succeeds (validity is decided inside the external
`@solana/web3.js` library, modelled as this boolean; both concrete agents
always produce a valid key via `this.agentId.toString()`). -/
structure AgentModel where
  name : String
  getState : Except String String
  agentIdPubkeyValid : Bool
deriving DecidableEq, Repr

/-- The message `@solana/web3.js` raises when `new PublicKey` rejects its
input. -/
def invalidPubkeyMsg : String := "Invalid public key input"

/-- `ContextRouter.checkPermission`: `false` for an unregistered id;
otherwise read the agent state, construct the `PublicKey`, and grant
access.  A rejected state read or an invalid key surfaces as a thrown
error (`Except.error`). -/
def checkPermission (m : ContextMap) (agent : AgentModel) (contextId : String) :
    Except String Bool :=
  match mapGet m contextId with
  | none => Except.ok false
  | some _ =>
    match agent.getState with
    | Except.error e => Except.error e
    | Except.ok _agentId =>
      if agent.agentIdPubkeyValid then Except.ok true
      else Except.error invalidPubkeyMsg

/-- The distinct failure conditions `routeRequest` can raise: the
permission-denied throw, the context-not-found throw, or an error
propagated from the permission check itself. -/
inductive RouteError
  | permissionDenied (msg : String)
  | contextNotFound (msg : String)
  | propagated (msg : String)
deriving DecidableEq, Repr

/-- Is a `routeRequest` outcome a NotFound-class failure? -/
def isNotFoundError {α : Type} : Except RouteError α → Bool
  | Except.error (RouteError.contextNotFound _) => true
  | _ => false

/-- Is a `routeRequest` outcome a PermissionDenied-class failure? -/
def isPermissionDeniedError {α : Type} : Except RouteError α → Bool
  | Except.error (RouteError.permissionDenied _) => true
  | _ => false

/-- The simulated success payload of `routeRequest` (`request` is echoed
back verbatim; its JS type `Record<string, any>` is a type parameter). -/
structure RouteResponse (ρ : Type) where
  contextId : String
  timestamp : String
  status : String
  dataMessage : String
  requestSummary : ρ
deriving DecidableEq, Repr

/-- `ContextRouter.routeRequest`: check permission first, throw
permission-denied when it is refused, then look the context up, throw
not-found when absent, and otherwise return the simulated response
(`now` stands for `new Date().toISOString()`). -/
def routeRequest {ρ : Type} (m : ContextMap) (agent : AgentModel)
    (contextId : String) (request : ρ) (now : String) :
    Except RouteError (RouteResponse ρ) :=
  match checkPermission m agent contextId with
  | Except.error e => Except.error (RouteError.propagated e)
  | Except.ok hasPermission =>
    if hasPermission = false then
      Except.error (RouteError.permissionDenied
        ("Agent " ++ agent.name ++ " does not have permission to access context "
          ++ contextId))
    else
      match mapGet m contextId with
      | none =>
        Except.error (RouteError.contextNotFound
          ("Context " ++ contextId ++ " not found"))
      | some context =>
        Except.ok
          { contextId := contextId
            timestamp := now
            status := "success"
            dataMessage := "Processed request to " ++ context.name
            requestSummary := request }

/-! ## `src/context-router.ts` — `loadContexts`

The filesystem and the two external parsers (`JSON.parse`, `yaml.parse`)
are collaborators: the directory listing may fail (`readdirSync` throw),
each file has contents, and each parse either yields a definition or
throws.  `loadContexts` registers definitions as it goes and stops at the
first failure, which it rethrows; the registry keeps everything registered
before the failure. -/

/-- The external world `loadContexts` touches: the `readdirSync` outcome,
the contents of each path (`readFileSync`, total for listed files), and
the two parsers keyed by full path contents. -/
structure LoadEnv where
  listing : Except String (List String)
  read : String → String
  parseJson : String → Except String ContextDefinition
  parseYaml : String → Except String ContextDefinition

/-- Does a directory entry have a recognized declarative-data extension? -/
def recognizedFile (file : String) : Bool :=
  jsEndsWith file ".yaml" || jsEndsWith file ".yml" || jsEndsWith file ".json"

/-- Parse one recognized file the way the loop body does: JSON for `.json`,
YAML otherwise (`path.join` is string concatenation with `/`). -/
def parseFile (env : LoadEnv) (contextDir file : String) :
    Except String ContextDefinition :=
  let content := env.read (contextDir ++ "/" ++ file)
  if jsEndsWith file ".json" then env.parseJson content else env.parseYaml content

/-- The `for (const file of files)` loop: returns the final registry and the
first error thrown, if any (registrations made before the failure are
kept, matching the mutation of `this.contexts`). -/
def loadLoop (env : LoadEnv) (contextDir : String) :
    List String → ContextMap → ContextMap × Option String
  | [], m => (m, none)
  | file :: files, m =>
    if recognizedFile file then
      match parseFile env contextDir file with
      | Except.error e => (m, some e)
      | Except.ok contextDef => loadLoop env contextDir files (registerContext m contextDef)
    else
      loadLoop env contextDir files m

/-- `ContextRouter.loadContexts`: list the directory (rethrowing a listing
failure with the registry untouched) and run the loop. -/
def loadContexts (env : LoadEnv) (contextDir : String) (m : ContextMap) :
    ContextMap × Option String :=
  match env.listing with
  | Except.error e => (m, some e)
  | Except.ok files => loadLoop env contextDir files m

/-! ## Agents — `solana-defi-agent.ts` (src/unnamed/part_001) and
`src/agents/nft-market-agent.ts`

`processInstruction` awaits `parseInstruction` and dispatches on the
resulting action inside a `try`/`catch`; the awaited outcome (a value, or
a rejection carrying a message) is the function's input here.  All the
domain handlers are total in the source (they only build literal
records), so the `catch` branch fires exactly on a parse rejection. -/

/-- `error` field of an `AgentResponse`. -/
structure ErrorInfo where
  code : Nat
  message : String
deriving DecidableEq, Repr

/-- The structured `data` payloads the domain handlers return, carrying
the handler inputs (and the timestamp where the source stores one).
Fields the source fills with fixed simulation literals
(`estimatedOutput: '123.45'`, `route: 'jupiter_v4'`, `lpTokens: '10.5'`,
`priceUsd: '1.23'`, the collection statistics, `mintAddress: 'Abc123...'`)
and the one IEEE-754-formatted display field (`fees` in `handleListNFT`)
carry no varying information and are not repeated in the model. -/
inductive RespData
  | swapData (sourceToken targetToken amount : String)
  | liquidityData (poolId tokenA amountA tokenB amountB : String)
  | priceData (token timestamp : String)
  | listNFTData (nftMint price marketplace listingTime : String)
  | buyNFTData (nftMint pricePaid marketplace purchaseTime : String)
  | collectionData (collectionAddress lastUpdated : String)
  | mintNFTData (name symbol metadataUri owner mintTime : String)
deriving DecidableEq, Repr

/-- `AgentResponse` from `agent-template.ts`. -/
structure AgentResponse where
  success : Bool
  message : String
  data : Option RespData
  transactionId : Option String
  error : Option ErrorInfo
deriving DecidableEq, Repr

/-- Field access `params.x` on the parsed instruction's params object
(`undefined` becomes `none`). -/
def lookupParam (params : List (String × ParamValue)) (k : String) :
    Option ParamValue :=
  (params.find? (fun p => p.1 = k)).map Prod.snd

/-- JS template-literal rendering of a parameter value
(`undefined` prints as `undefined`). -/
def jsParamStr : Option ParamValue → String
  | none => "undefined"
  | some (ParamValue.str s) => s
  | some (ParamValue.nat n) => toString n

/-- JS truthiness of a possibly-missing parameter value. -/
def jsTruthy : Option ParamValue → Bool
  | none => false
  | some (ParamValue.str s) => decide (s ≠ "")
  | some (ParamValue.nat n) => decide (n ≠ 0)

/-- JS `v || d`: `v` when truthy, else `d`. -/
def jsOr (v : Option ParamValue) (d : ParamValue) : ParamValue :=
  match v with
  | some x => if jsTruthy (some x) then x else d
  | none => d

/-- Decimal rendering of `n/100` as JS prints it for the slippage values in
play (exact: `n` is an integer number of basis points). -/
def bpsPercentString (n : Nat) : String :=
  if n % 100 = 0 then toString (n / 100)
  else if n % 10 = 0 then toString (n / 100) ++ "." ++ toString (n / 10 % 10)
  else toString (n / 100) ++ "." ++ toString (n / 10 % 10) ++ toString (n % 10)

/-- `${slippageBps/100}` for the slippage value handed to `handleSwap`: a
number renders via `bpsPercentString`; a string is first coerced by JS
`Number` (modelled for integer strings, `NaN` otherwise — the parser only
ever produces the numeric literal 50, so this arm is dead in the composed
system). -/
def slippagePercent : ParamValue → String
  | ParamValue.nat n => bpsPercentString n
  | ParamValue.str s =>
    match s.toNat? with
    | some n => bpsPercentString n
    | none => "NaN"

/-- Configuration state of a `SolanaDeFiAgent` used by its handlers. -/
structure DeFiAgentCfg where
  supportedDexes : List String
  defaultSlippageBps : Nat
deriving DecidableEq, Repr

/-- `SolanaDeFiAgent.handleSwap`. -/
def handleSwap (sourceToken targetToken amount : String)
    (slippageBps : ParamValue) : AgentResponse :=
  { success := true
    message := "Simulated swap of " ++ amount ++ " " ++ sourceToken ++ " to "
      ++ targetToken ++ " with " ++ slippagePercent slippageBps ++ "% slippage"
    data := some (RespData.swapData sourceToken targetToken amount)
    transactionId := none
    error := none }

/-- `SolanaDeFiAgent.handleAddLiquidity`. -/
def handleAddLiquidity (poolId tokenA amountA tokenB amountB : String) :
    AgentResponse :=
  { success := true
    message := "Added liquidity to pool " ++ poolId
    data := some (RespData.liquidityData poolId tokenA amountA tokenB amountB)
    transactionId := none
    error := none }

/-- `SolanaDeFiAgent.handlePriceCheck`. -/
def handlePriceCheck (token now : String) : AgentResponse :=
  { success := true
    message := "Current price for " ++ token
    data := some (RespData.priceData token now)
    transactionId := none
    error := none }

/-- The failure envelope of the `default:` switch arm (code 400). -/
def unsupportedActionResponse (action : String) : AgentResponse :=
  { success := false
    message := "Unsupported action: " ++ action
    data := none
    transactionId := none
    error := some { code := 400
                    message := "The requested action is not supported by this agent" } }

/-- The failure envelope of the `catch` branch (code 500, carrying
`error.message`; the `'Unknown error'` fallback for non-`Error` throwables
is subsumed by the modelled rejection message). -/
def processingExceptionResponse (msg : String) : AgentResponse :=
  { success := false
    message := "Failed to process instruction"
    data := none
    transactionId := none
    error := some { code := 500, message := msg } }

/-- `SolanaDeFiAgent.processInstruction`: dispatch on the parsed action
(`parseOutcome` is the awaited result of `parseInstruction`, `now` stands
for `new Date().toISOString()` in `handlePriceCheck`). -/
def deFiProcessInstruction (cfg : DeFiAgentCfg) (now : String)
    (parseOutcome : Except String ParsedInstruction) : AgentResponse :=
  match parseOutcome with
  | Except.error msg => processingExceptionResponse msg
  | Except.ok parsedInstruction =>
    if parsedInstruction.action = "swap" then
      handleSwap
        (jsParamStr (lookupParam parsedInstruction.params "sourceToken"))
        (jsParamStr (lookupParam parsedInstruction.params "targetToken"))
        (jsParamStr (lookupParam parsedInstruction.params "amount"))
        (jsOr (lookupParam parsedInstruction.params "slippageBps")
          (ParamValue.nat cfg.defaultSlippageBps))
    else if parsedInstruction.action = "addLiquidity" then
      handleAddLiquidity
        (jsParamStr (lookupParam parsedInstruction.params "poolId"))
        (jsParamStr (lookupParam parsedInstruction.params "tokenA"))
        (jsParamStr (lookupParam parsedInstruction.params "amountA"))
        (jsParamStr (lookupParam parsedInstruction.params "tokenB"))
        (jsParamStr (lookupParam parsedInstruction.params "amountB"))
    else if parsedInstruction.action = "checkPrice" then
      handlePriceCheck
        (jsParamStr (lookupParam parsedInstruction.params "token")) now
    else unsupportedActionResponse parsedInstruction.action

/-- Configuration state of an `NFTMarketAgent` used by its handlers. -/
structure NFTAgentCfg where
  agentId : String
  supportedMarketplaces : List String
  defaultRoyaltyBps : Nat
deriving DecidableEq, Repr

/-- `NFTMarketAgent.handleListNFT` (the `fees` display field is the one
IEEE-754-formatted value left out of `RespData`). -/
def handleListNFT (nftMint price marketplace now : String) : AgentResponse :=
  { success := true
    message := "Listed NFT " ++ nftMint ++ " for " ++ price ++ " SOL on " ++ marketplace
    data := some (RespData.listNFTData nftMint price marketplace now)
    transactionId := none
    error := none }

/-- `NFTMarketAgent.handleBuyNFT` (`marketplace` in its data payload is
`this.supportedMarketplaces[0]`). -/
def handleBuyNFT (nftMint maxPrice firstMarketplace now : String) : AgentResponse :=
  { success := true
    message := "Purchased NFT " ++ nftMint ++ " for " ++ maxPrice ++ " SOL"
    data := some (RespData.buyNFTData nftMint maxPrice firstMarketplace now)
    transactionId := none
    error := none }

/-- `NFTMarketAgent.handleCollectionCheck`. -/
def handleCollectionCheck (collectionAddress now : String) : AgentResponse :=
  { success := true
    message := "Information about collection " ++ collectionAddress
    data := some (RespData.collectionData collectionAddress now)
    transactionId := none
    error := none }

/-- `NFTMarketAgent.handleMintNFT`. -/
def handleMintNFT (metadataUri nftName symbol owner now : String) : AgentResponse :=
  { success := true
    message := "Minted new NFT: " ++ nftName ++ " (" ++ symbol ++ ")"
    data := some (RespData.mintNFTData nftName symbol metadataUri owner now)
    transactionId := none
    error := none }

/-- `this.supportedMarketplaces[0]`, rendered (`undefined` when empty). -/
def firstMarketplaceStr (cfg : NFTAgentCfg) : String :=
  cfg.supportedMarketplaces.headD "undefined"

/-- `NFTMarketAgent.processInstruction`. -/
def nftProcessInstruction (cfg : NFTAgentCfg) (now : String)
    (parseOutcome : Except String ParsedInstruction) : AgentResponse :=
  match parseOutcome with
  | Except.error msg => processingExceptionResponse msg
  | Except.ok parsedInstruction =>
    if parsedInstruction.action = "listNFT" then
      handleListNFT
        (jsParamStr (lookupParam parsedInstruction.params "nftMint"))
        (jsParamStr (lookupParam parsedInstruction.params "price"))
        (jsParamStr (some (jsOr (lookupParam parsedInstruction.params "marketplace")
          (ParamValue.str (firstMarketplaceStr cfg)))))
        now
    else if parsedInstruction.action = "buyNFT" then
      handleBuyNFT
        (jsParamStr (lookupParam parsedInstruction.params "nftMint"))
        (jsParamStr (lookupParam parsedInstruction.params "maxPrice"))
        (firstMarketplaceStr cfg)
        now
    else if parsedInstruction.action = "checkCollection" then
      handleCollectionCheck
        (jsParamStr (lookupParam parsedInstruction.params "collectionAddress"))
        now
    else if parsedInstruction.action = "mintNFT" then
      handleMintNFT
        (jsParamStr (lookupParam parsedInstruction.params "metadataUri"))
        (jsParamStr (lookupParam parsedInstruction.params "name"))
        (jsParamStr (lookupParam parsedInstruction.params "symbol"))
        cfg.agentId
        now
    else unsupportedActionResponse parsedInstruction.action

/-! ## Supporting lemmas -/

/-- `Char.ofNat` of a valid scalar value round-trips through `toNat`. -/
theorem charOfNat_toNat (n : Nat) (h : n.isValidChar) : (Char.ofNat n).toNat = n := by
  simp [Char.ofNat, dif_pos h, Char.ofNatAux, Char.toNat, UInt32.toNat]

/-- Lower-casing a character is idempotent. -/
theorem jsLowerChar_idem (c : Char) : jsLowerChar (jsLowerChar c) = jsLowerChar c := by
  unfold jsLowerChar
  by_cases h : 65 ≤ c.toNat ∧ c.toNat ≤ 90
  · rw [if_pos h]
    have hv : (c.toNat + 32).isValidChar := Or.inl (by omega)
    rw [if_neg]
    rw [charOfNat_toNat _ hv]
    omega
  · rw [if_neg h, if_neg h]

/-- `trimL` is `rdropWhile` after `dropWhile`. -/
theorem trimL_eq (l : List Char) :
    trimL l = List.rdropWhile isWsChar (List.dropWhile isWsChar l) := rfl

/-- Trimming keeps only characters of the original list. -/
theorem trimL_subset (l : List Char) : trimL l ⊆ l := by
  rw [trimL_eq]
  exact Set.Subset.trans
    (List.rdropWhile_prefix _ _).sublist.subset
    (List.dropWhile_suffix _).sublist.subset

/-- A leading `dropWhile` is already stable on a fully trimmed list. -/
theorem dropWhile_trimmed (l : List Char) :
    List.dropWhile isWsChar (List.rdropWhile isWsChar (List.dropWhile isWsChar l)) =
      List.rdropWhile isWsChar (List.dropWhile isWsChar l) := by
  rw [List.dropWhile_eq_self_iff]
  intro hl
  have hpre :
      List.rdropWhile isWsChar (List.dropWhile isWsChar l) <+:
        List.dropWhile isWsChar l :=
    List.rdropWhile_prefix _ _
  rw [hpre.get_eq hl]
  exact List.dropWhile_get_zero_not _ _ (Nat.lt_of_lt_of_le hl hpre.length_le)

/-- JS `trim` is idempotent. -/
theorem trimL_idem (l : List Char) : trimL (trimL l) = trimL l := by
  rw [trimL_eq l, trimL_eq, dropWhile_trimmed, List.rdropWhile_idempotent]

/-- Lower-casing is idempotent on lists. -/
theorem lowerL_idem (l : List Char) : lowerL (lowerL l) = lowerL l := by
  unfold lowerL
  rw [List.map_map]
  exact List.map_congr_left (fun c _ => jsLowerChar_idem c)

/-- Lower-casing is stable on a trimmed lower-cased list. -/
theorem lowerL_trimL_lowerL (l : List Char) :
    lowerL (trimL (lowerL l)) = trimL (lowerL l) := by
  unfold lowerL
  have h : ∀ c ∈ trimL (lowerL l), jsLowerChar c = c := by
    intro c hc
    have hmem : c ∈ lowerL l := trimL_subset _ hc
    obtain ⟨y, _, rfl⟩ := List.mem_map.1 hmem
    exact jsLowerChar_idem y
  calc (trimL (lowerL l)).map jsLowerChar
      = (trimL (lowerL l)).map id := List.map_congr_left (fun c hc => h c hc)
    _ = trimL (lowerL l) := List.map_id _

/-- The full normalisation `toLowerCase().trim()` is idempotent. -/
theorem jsNormalize_idem (s : String) :
    jsTrim (jsToLower (jsTrim (jsToLower s))) = jsTrim (jsToLower s) := by
  unfold jsTrim jsToLower
  simp only [String.data]
  rw [lowerL_trimL_lowerL, trimL_idem]

/-- Registry well-formedness: at most one stored entry per id (what the JS
`Map` guarantees by construction). -/
def registryWF (m : ContextMap) : Prop :=
  ∀ k, countKey m k ≤ 1

/-- `Map.set` then `get` at the same key yields the new value. -/
theorem mapGet_mapSet_self (m : ContextMap) (k : String) (v : ContextDefinition) :
    mapGet (mapSet m k v) k = some v := by
  induction m with
  | nil => simp [mapSet, mapGet]
  | cons p t ih =>
    obtain ⟨k₀, v₀⟩ := p
    by_cases h : k₀ = k
    · simp [mapSet, h, mapGet]
    · simp [mapSet, h, mapGet, ih]

/-- `Map.set` leaves other keys unchanged. -/
theorem mapGet_mapSet_ne (m : ContextMap) (k k' : String) (v : ContextDefinition)
    (h : k ≠ k') : mapGet (mapSet m k v) k' = mapGet m k' := by
  induction m with
  | nil => simp [mapSet, mapGet, h]
  | cons p t ih =>
    obtain ⟨k₀, v₀⟩ := p
    by_cases hk : k₀ = k
    · subst hk
      simp [mapSet, mapGet, h]
    · by_cases hk' : k₀ = k'
      · simp [mapSet, hk, mapGet, hk', Ne.symm h]
      · simp [mapSet, hk, mapGet, hk', ih]

/-- `countKey` on the empty registry. -/
theorem countKey_nil (k : String) : countKey emptyContexts k = 0 := rfl

/-- `countKey` unfolded over a cons cell. -/
theorem countKey_cons (k₀ : String) (v₀ : ContextDefinition)
    (t : List (String × ContextDefinition)) (k : String) :
    countKey ((k₀, v₀) :: t) k = countKey t k + (if k₀ = k then 1 else 0) := by
  by_cases h : k₀ = k <;> simp [countKey, List.countP_cons, h]

/-- `Map.set` at a key stored at most once leaves exactly one entry. -/
theorem countKey_mapSet_self (m : ContextMap) (k : String) (v : ContextDefinition)
    (h : countKey m k ≤ 1) : countKey (mapSet m k v) k = 1 := by
  induction m with
  | nil => simp [mapSet, countKey_cons, countKey, List.countP_nil]
  | cons p t ih =>
    obtain ⟨k₀, v₀⟩ := p
    by_cases hk : k₀ = k
    · subst hk
      rw [countKey_cons, if_pos rfl] at h
      rw [mapSet, if_pos rfl, countKey_cons, if_pos rfl]
      omega
    · rw [countKey_cons, if_neg hk] at h
      rw [mapSet, if_neg hk, countKey_cons, if_neg hk, ih (by omega)]

/-- `Map.set` does not change the entry count of other keys. -/
theorem countKey_mapSet_ne (m : ContextMap) (k k' : String) (v : ContextDefinition)
    (h : k ≠ k') : countKey (mapSet m k v) k' = countKey m k' := by
  induction m with
  | nil => simp [mapSet, countKey_cons, countKey, List.countP_nil, h]
  | cons p t ih =>
    obtain ⟨k₀, v₀⟩ := p
    by_cases hk : k₀ = k
    · subst hk
      rw [mapSet, if_pos rfl, countKey_cons, countKey_cons]
    · rw [mapSet, if_neg hk, countKey_cons, countKey_cons, ih]

/-- `registerContext` preserves the at-most-one-entry-per-id invariant. -/
theorem registryWF_registerContext (m : ContextMap) (c : ContextDefinition)
    (h : registryWF m) : registryWF (registerContext m c) := by
  intro k
  by_cases hk : c.id = k
  · subst hk
    rw [registerContext, countKey_mapSet_self m c.id c (h c.id)]
  · rw [registerContext, countKey_mapSet_ne m c.id k c hk]
    exact h k

/-- The file loop splits over an append: a clean first half continues into
the second with the first half's registrations kept. -/
theorem loadLoop_append (env : LoadEnv) (dir : String)
    (l₁ l₂ : List String) (m : ContextMap) :
    loadLoop env dir (l₁ ++ l₂) m =
      (match loadLoop env dir l₁ m with
       | (m₁, none) => loadLoop env dir l₂ m₁
       | (m₁, some e) => (m₁, some e)) := by
  induction l₁ generalizing m with
  | nil => rfl
  | cons f fs ih =>
    rw [List.cons_append]
    show loadLoop env dir (f :: (fs ++ l₂)) m = _
    rw [loadLoop, loadLoop]
    by_cases hr : recognizedFile f
    · rw [if_pos hr, if_pos hr]
      cases hpf : parseFile env dir f with
      | error e => rfl
      | ok d => exact ih (registerContext m d)
    · rw [if_neg hr, if_neg hr]
      exact ih m

/-! ## Concrete fixtures (used by witnesses and counterexamples) -/

/-- The Jupiter DEX context of `contexts/jupiter-dex.yaml`. -/
def jupiterDef : ContextDefinition :=
  { id := "jupiter-dex-v4"
    name := "Jupiter Aggregator"
    description := "A liquidity aggregator for Solana"
    ctype := ContextType.DEX
    capabilities := ["token_swaps", "route_optimization", "price_discovery", "slippage_protection"]
    endpoint := some "https://quote-api.jup.ag/v4"
    pubkey := some "JUP4Fb2cqiRUcaTHdrPC8h2gNsA2ETXiPDD33WcGuJB"
    authRequired := false
    schema := none }

/-- A context declaring a mixed-case capability (spec test scenario). -/
def mixedCaseDef : ContextDefinition :=
  { id := "mixed-case-ctx"
    name := "Mixed Case Context"
    description := "capability tags in mixed case"
    ctype := ContextType.DEX
    capabilities := ["Token_Swaps"]
    endpoint := none
    pubkey := none
    authRequired := false
    schema := none }

/-- A second definition reusing the Jupiter id (overwrite scenario). -/
def jupiterDefV2 : ContextDefinition :=
  { id := "jupiter-dex-v4"
    name := "Jupiter Aggregator v2"
    description := "updated registration under the same id"
    ctype := ContextType.ORACLE
    capabilities := ["price_discovery"]
    endpoint := none
    pubkey := none
    authRequired := false
    schema := none }

/-- A well-behaved agent (valid state, valid public key). -/
def testAgent : AgentModel :=
  { name := "Solana DeFi Agent"
    getState := Except.ok "BHsE5gDMGpGDi53bVng8HeBpMHuPC8RqJbd7CVHqJbe4"
    agentIdPubkeyValid := true }

/-! ## Claims -/

/-- C2: `findContextsByCapabilities` returns exactly the registered
definitions for which every required capability is matched by some
declared capability under case-insensitive comparison (AND semantics),
and it returns the empty list, not an error, when nothing matches. -/
theorem findContextsByCapabilities_correct (m : ContextMap) (req : List String) :
    (∀ d, d ∈ findContextsByCapabilities m req ↔
      (d ∈ mapValues m ∧
        ∀ cap ∈ req, ∃ c ∈ d.capabilities, jsToLower c = jsToLower cap)) ∧
    ((∀ d ∈ mapValues m,
        ¬ ∀ cap ∈ req, ∃ c ∈ d.capabilities, jsToLower c = jsToLower cap) →
      findContextsByCapabilities m req = []) := by
  have hmem : ∀ d, d ∈ findContextsByCapabilities m req ↔
      (d ∈ mapValues m ∧
        ∀ cap ∈ req, ∃ c ∈ d.capabilities, jsToLower c = jsToLower cap) := by
    intro d
    simp only [findContextsByCapabilities, List.mem_filter, List.all_eq_true,
      List.any_eq_true, decide_eq_true_eq]
  refine ⟨hmem, fun h => ?_⟩
  by_contra hne
  obtain ⟨d, hd⟩ := List.exists_mem_of_ne_nil _ hne
  obtain ⟨hdv, hcaps⟩ := (hmem d).1 hd
  exact h d hdv hcaps

/-- Witness for C2: with Jupiter and the mixed-case context registered,
querying `["token_swaps"]` matches the mixed-case capability
`"Token_Swaps"` as well, and querying
`["token_swaps", "governance_voting"]` matches nothing. -/
theorem findContextsByCapabilities_correct_witness :
    mixedCaseDef ∈ findContextsByCapabilities
      (registerContext (registerContext emptyContexts jupiterDef) mixedCaseDef)
      ["token_swaps"] ∧
    findContextsByCapabilities
      (registerContext (registerContext emptyContexts jupiterDef) mixedCaseDef)
      ["token_swaps", "governance_voting"] = [] :=
  ⟨((findContextsByCapabilities_correct
      (registerContext (registerContext emptyContexts jupiterDef) mixedCaseDef)
      ["token_swaps"]).1 mixedCaseDef).2 (by decide),
   (findContextsByCapabilities_correct
      (registerContext (registerContext emptyContexts jupiterDef) mixedCaseDef)
      ["token_swaps", "governance_voting"]).2 (by decide)⟩

/-- C6: the empty requirement list is satisfied by every registered
definition, so `findContextsByCapabilities([])` returns the whole
registry. -/
theorem findContextsByCapabilities_nil (m : ContextMap) :
    findContextsByCapabilities m [] = mapValues m := by
  simp [findContextsByCapabilities]

/-- C3: the registry keeps at most one definition per id; re-registering
under an existing id leaves exactly one entry holding the second value
(last write wins), and a `findContextsByType` query observes only the
second value. -/
theorem registerContext_last_write_wins
    (m : ContextMap) (c₁ c₂ : ContextDefinition) (t : ContextType)
    (hid : c₂.id = c₁.id) (hwf : registryWF m) :
    registryWF (registerContext m c₁) ∧
    countKey (registerContext (registerContext m c₁) c₂) c₁.id = 1 ∧
    mapGet (registerContext (registerContext m c₁) c₂) c₁.id = some c₂ ∧
    findContextsByType (registerContext (registerContext emptyContexts c₁) c₂) t =
      (if c₂.ctype = t then [c₂] else []) := by
  have hwf₁ : registryWF (registerContext m c₁) := registryWF_registerContext m c₁ hwf
  refine ⟨hwf₁, ?_, ?_, ?_⟩
  · show countKey (mapSet (registerContext m c₁) c₂.id c₂) c₁.id = 1
    rw [hid]
    exact countKey_mapSet_self _ _ _ (hwf₁ c₁.id)
  · show mapGet (mapSet (registerContext m c₁) c₂.id c₂) c₁.id = some c₂
    rw [hid]
    exact mapGet_mapSet_self _ _ _
  · show findContextsByType (mapSet (mapSet [] c₁.id c₁) c₂.id c₂) t = _
    rw [hid]
    by_cases ht : c₂.ctype = t
    · simp [mapSet, findContextsByType, mapValues, ht]
    · simp [mapSet, findContextsByType, mapValues, ht]

/-- Witness for C3: registering the updated Jupiter definition over the
original leaves one entry, holding the update, and a DEX-type query no
longer sees the original. -/
theorem registerContext_last_write_wins_witness :
    countKey (registerContext (registerContext emptyContexts jupiterDef) jupiterDefV2)
      jupiterDef.id = 1 ∧
    mapGet (registerContext (registerContext emptyContexts jupiterDef) jupiterDefV2)
      jupiterDef.id = some jupiterDefV2 ∧
    findContextsByType (registerContext (registerContext emptyContexts jupiterDef) jupiterDefV2)
      ContextType.DEX = [] :=
  have h := registerContext_last_write_wins emptyContexts jupiterDef jupiterDefV2
    ContextType.DEX rfl (fun _ => Nat.zero_le _)
  ⟨h.2.1, h.2.2.1, by
    have h4 := h.2.2.2
    simpa using h4⟩

/-- C4: `checkPermission` returns `false` for an unregistered context id,
and `true` for a registered one once the agent state read and the
`PublicKey` construction go through. -/
theorem checkPermission_correct (m : ContextMap) (agent : AgentModel)
    (contextId st : String) :
    (mapGet m contextId = none → checkPermission m agent contextId = Except.ok false) ∧
    ((mapGet m contextId).isSome = true → agent.getState = Except.ok st →
      agent.agentIdPubkeyValid = true →
      checkPermission m agent contextId = Except.ok true) := by
  constructor
  · intro h
    simp [checkPermission, h]
  · intro h hs hv
    obtain ⟨ctx, hctx⟩ := Option.isSome_iff_exists.1 h
    simp [checkPermission, hctx, hs, hv]

/-- Witness for C4: with Jupiter registered, the test agent is granted
access; with the empty registry it is refused. -/
theorem checkPermission_correct_witness :
    checkPermission (registerContext emptyContexts jupiterDef) testAgent
      "jupiter-dex-v4" = Except.ok true ∧
    checkPermission emptyContexts testAgent "jupiter-dex-v4" = Except.ok false :=
  ⟨(checkPermission_correct (registerContext emptyContexts jupiterDef) testAgent
      "jupiter-dex-v4" "BHsE5gDMGpGDi53bVng8HeBpMHuPC8RqJbd7CVHqJbe4").2
      (by decide) rfl rfl,
   (checkPermission_correct emptyContexts testAgent
      "jupiter-dex-v4" "BHsE5gDMGpGDi53bVng8HeBpMHuPC8RqJbd7CVHqJbe4").1 rfl⟩

/-- Counterexample to C1: routing to the unregistered id
`"jupiter-dex-v4"` on an empty registry does NOT raise the NotFound-class
error — `checkPermission` already returns `false` for an unregistered id,
so the permission-denied throw fires first. -/
theorem routeRequest_unregistered_cex :
    mapGet emptyContexts "jupiter-dex-v4" = none ∧
    isNotFoundError (routeRequest emptyContexts testAgent "jupiter-dex-v4"
      ([] : List (String × String)) "2026-10-11T00:00:00.000Z") = false ∧
    routeRequest emptyContexts testAgent "jupiter-dex-v4"
      ([] : List (String × String)) "2026-10-11T00:00:00.000Z" =
      Except.error (RouteError.permissionDenied
        "Agent Solana DeFi Agent does not have permission to access context jupiter-dex-v4") :=
  ⟨rfl, rfl, rfl⟩

/-- C1 (amended): for every agent and every unregistered context id,
`routeRequest` fails with the permission-denied error (not a NotFound
one), because `checkPermission` returns `false` for unregistered ids and
the permission check runs first. -/
theorem routeRequest_unregistered_amended {ρ : Type}
    (m : ContextMap) (agent : AgentModel) (contextId : String)
    (request : ρ) (now : String) (h : mapGet m contextId = none) :
    routeRequest m agent contextId request now =
      Except.error (RouteError.permissionDenied
        ("Agent " ++ agent.name ++ " does not have permission to access context "
          ++ contextId)) := by
  simp [routeRequest, checkPermission, h]

/-- Witness for the amended C1 at the concrete unregistered id. -/
theorem routeRequest_unregistered_amended_witness :
    routeRequest emptyContexts testAgent "jupiter-dex-v4"
      ([] : List (String × String)) "2026-10-11T00:00:00.000Z" =
      Except.error (RouteError.permissionDenied
        ("Agent " ++ testAgent.name ++ " does not have permission to access context "
          ++ "jupiter-dex-v4")) :=
  routeRequest_unregistered_amended emptyContexts testAgent "jupiter-dex-v4"
    ([] : List (String × String)) "2026-10-11T00:00:00.000Z" rfl

/-- C9: a `true` permission check implies the id is registered, the
NotFound branch of `routeRequest` is unreachable (no outcome is ever a
`contextNotFound` error), and an unregistered id always yields the
permission-denied error. -/
theorem routeRequest_notFound_unreachable {ρ : Type}
    (m : ContextMap) (agent : AgentModel) (contextId : String)
    (request : ρ) (now : String) :
    (checkPermission m agent contextId = Except.ok true →
      (mapGet m contextId).isSome = true) ∧
    isNotFoundError (routeRequest m agent contextId request now) = false ∧
    (mapGet m contextId = none →
      isPermissionDeniedError (routeRequest m agent contextId request now) = true) := by
  refine ⟨?_, ?_, ?_⟩
  · intro h
    cases hg : mapGet m contextId with
    | none =>
      rw [checkPermission.eq_def, hg] at h
      exact absurd h (by simp)
    | some _ => rfl
  · rw [routeRequest.eq_def]
    cases hcp : checkPermission m agent contextId with
    | error e => rfl
    | ok b =>
      cases b with
      | false => rfl
      | true =>
        have hg : (mapGet m contextId).isSome = true := by
          cases hg : mapGet m contextId with
          | none =>
            rw [checkPermission.eq_def, hg] at hcp
            exact absurd hcp (by simp)
          | some _ => rfl
        obtain ⟨ctx, hctx⟩ := Option.isSome_iff_exists.1 hg
        simp [hctx, isNotFoundError]
  · intro h
    simp [routeRequest, checkPermission, h, isPermissionDeniedError]

/-- Witness for C9 at the concrete unregistered id. -/
theorem routeRequest_notFound_unreachable_witness :
    isPermissionDeniedError (routeRequest emptyContexts testAgent "jupiter-dex-v4"
      ([] : List (String × String)) "2026-10-11T00:00:00.000Z") = true :=
  (routeRequest_notFound_unreachable emptyContexts testAgent "jupiter-dex-v4"
    ([] : List (String × String)) "2026-10-11T00:00:00.000Z").2.2 rfl

/-- C7: `loadContexts` rethrows a directory-listing failure with the
registry untouched, and rethrows the first file that fails to parse while
keeping everything registered from the files processed before it. -/
theorem loadContexts_error_propagation
    (env : LoadEnv) (dir : String) (m m₁ : ContextMap) (e : String)
    (files₁ files₂ : List String) (bad : String) :
    (env.listing = Except.error e → loadContexts env dir m = (m, some e)) ∧
    (env.listing = Except.ok (files₁ ++ bad :: files₂) →
      loadLoop env dir files₁ m = (m₁, none) →
      recognizedFile bad = true →
      parseFile env dir bad = Except.error e →
      loadContexts env dir m = (m₁, some e)) := by
  constructor
  · intro h
    rw [loadContexts.eq_def, h]
  · intro hls hloop hrec hparse
    rw [loadContexts.eq_def, hls]
    show loadLoop env dir (files₁ ++ bad :: files₂) m = (m₁, some e)
    rw [loadLoop_append, hloop]
    show loadLoop env dir (bad :: files₂) m₁ = (m₁, some e)
    rw [loadLoop, if_pos hrec, hparse]

/-- A concrete loading environment: one good YAML file, then a JSON file
that fails to parse, then an unrecognized file. -/
def testLoadEnv : LoadEnv :=
  { listing := Except.ok ["jupiter-dex.yaml", "broken.json", "notes.txt"]
    read := fun _ => "contents"
    parseJson := fun _ => Except.error "Unexpected token in JSON"
    parseYaml := fun _ => Except.ok jupiterDef }

/-- Witness for C7: loading stops at `broken.json` with its parse error,
and the Jupiter definition registered from the first file stays in the
registry. -/
theorem loadContexts_error_propagation_witness :
    loadContexts testLoadEnv "contexts" emptyContexts =
      (registerContext emptyContexts jupiterDef, some "Unexpected token in JSON") :=
  (loadContexts_error_propagation testLoadEnv "contexts" emptyContexts
      (registerContext emptyContexts jupiterDef) "Unexpected token in JSON"
      ["jupiter-dex.yaml"] ["notes.txt"] "broken.json").2
    rfl (by decide) (by decide) rfl

/-- C5: for both agents, a recognized parsed action produces a success
envelope; an unrecognized one the 400 failure envelope; a rejection during
parsing the 500 failure envelope carrying the rejection message; and any
failure envelope carries an `error` field. -/
theorem processInstruction_envelope
    (cfgD : DeFiAgentCfg) (cfgN : NFTAgentCfg) (now msg : String)
    (p : ParsedInstruction) (outcome : Except String ParsedInstruction) :
    ((p.action = "swap" ∨ p.action = "addLiquidity" ∨ p.action = "checkPrice") →
      (deFiProcessInstruction cfgD now (Except.ok p)).success = true) ∧
    (p.action ≠ "swap" → p.action ≠ "addLiquidity" → p.action ≠ "checkPrice" →
      deFiProcessInstruction cfgD now (Except.ok p) = unsupportedActionResponse p.action ∧
      (unsupportedActionResponse p.action).success = false ∧
      (unsupportedActionResponse p.action).error =
        some { code := 400, message := "The requested action is not supported by this agent" }) ∧
    (deFiProcessInstruction cfgD now (Except.error msg) = processingExceptionResponse msg ∧
      (processingExceptionResponse msg).success = false ∧
      (processingExceptionResponse msg).error = some { code := 500, message := msg }) ∧
    ((deFiProcessInstruction cfgD now outcome).success = false →
      (deFiProcessInstruction cfgD now outcome).error.isSome = true) ∧
    ((p.action = "listNFT" ∨ p.action = "buyNFT" ∨ p.action = "checkCollection" ∨
        p.action = "mintNFT") →
      (nftProcessInstruction cfgN now (Except.ok p)).success = true) ∧
    (p.action ≠ "listNFT" → p.action ≠ "buyNFT" → p.action ≠ "checkCollection" →
      p.action ≠ "mintNFT" →
      nftProcessInstruction cfgN now (Except.ok p) = unsupportedActionResponse p.action) ∧
    (nftProcessInstruction cfgN now (Except.error msg) = processingExceptionResponse msg) ∧
    ((nftProcessInstruction cfgN now outcome).success = false →
      (nftProcessInstruction cfgN now outcome).error.isSome = true) := by
  refine ⟨?_, ?_, ⟨rfl, rfl, rfl⟩, ?_, ?_, ?_, rfl, ?_⟩
  · rintro (h | h | h) <;>
      simp [deFiProcessInstruction, h, handleSwap, handleAddLiquidity, handlePriceCheck]
  · intro h1 h2 h3
    refine ⟨?_, rfl, rfl⟩
    simp [deFiProcessInstruction, h1, h2, h3]
  · cases outcome with
    | error e => intro _; rfl
    | ok q =>
      simp only [deFiProcessInstruction]
      split_ifs <;>
        simp [handleSwap, handleAddLiquidity, handlePriceCheck, unsupportedActionResponse]
  · rintro (h | h | h | h) <;>
      simp [nftProcessInstruction, h, handleListNFT, handleBuyNFT, handleCollectionCheck,
        handleMintNFT]
  · intro h1 h2 h3 h4
    simp [nftProcessInstruction, h1, h2, h3, h4]
  · cases outcome with
    | error e => intro _; rfl
    | ok q =>
      simp only [nftProcessInstruction]
      split_ifs <;>
        simp [handleListNFT, handleBuyNFT, handleCollectionCheck, handleMintNFT,
          unsupportedActionResponse]

/-- Fixture configurations for the two agents. -/
def testDeFiCfg : DeFiAgentCfg :=
  { supportedDexes := ["Jupiter", "Raydium"], defaultSlippageBps := 50 }

/-- NFT agent fixture configuration. -/
def testNFTCfg : NFTAgentCfg :=
  { agentId := "BHsE5gDMGpGDi53bVng8HeBpMHuPC8RqJbd7CVHqJbe4"
    supportedMarketplaces := ["Magic Eden", "Tensor"]
    defaultRoyaltyBps := 500 }

/-- Witness for C5: a recognized swap succeeds, the parser's `unknown`
action yields the 400 envelope, and a parse rejection yields the 500
envelope, at concrete inputs. -/
theorem processInstruction_envelope_witness :
    (deFiProcessInstruction testDeFiCfg "t0"
      (Except.ok (parseInstruction "swap 1 SOL to USDC"))).success = true ∧
    deFiProcessInstruction testDeFiCfg "t0"
      (Except.ok (parseInstruction "do something completely different")) =
      unsupportedActionResponse "unknown" ∧
    deFiProcessInstruction testDeFiCfg "t0" (Except.error "boom") =
      processingExceptionResponse "boom" :=
  ⟨(processInstruction_envelope testDeFiCfg testNFTCfg "t0" "boom"
      (parseInstruction "swap 1 SOL to USDC") (Except.ok (parseInstruction "swap 1 SOL to USDC"))).1
      (Or.inl (by decide)),
   by
    have h := (processInstruction_envelope testDeFiCfg testNFTCfg "t0" "boom"
      (parseInstruction "do something completely different")
      (Except.ok (parseInstruction "do something completely different"))).2.1
      (by decide) (by decide) (by decide)
    have ha : (parseInstruction "do something completely different").action = "unknown" := by decide
    rw [ha] at h
    exact h.1,
   (processInstruction_envelope testDeFiCfg testNFTCfg "t0" "boom"
      (parseInstruction "swap 1 SOL to USDC") (Except.ok (parseInstruction "swap 1 SOL to USDC"))).2.2.1.1⟩

/-- C8: `parseInstruction` is a pure function of its input string — it
reads no external state, so two runs on the same string return the same
action, params and confidence. -/
theorem parseInstruction_pure (s₁ s₂ : String) (h : s₁ = s₂) :
    parseInstruction s₁ = parseInstruction s₂ := by
  rw [h]

/-- Witness for C8: two runs on the concrete swap instruction agree. -/
theorem parseInstruction_pure_witness :
    parseInstruction "Swap 1 SOL to USDC" = parseInstruction "Swap 1 SOL to USDC" :=
  parseInstruction_pure "Swap 1 SOL to USDC" "Swap 1 SOL to USDC" rfl

/-- C10: `parseInstruction` is invariant under letter case and surrounding
whitespace of its input: it agrees with itself on the lower-cased, trimmed
form of the string, because the input is normalised exactly that way
before any keyword or regex matching. -/
theorem parseInstruction_case_ws_invariant (s : String) :
    parseInstruction (jsTrim (jsToLower s)) = parseInstruction s := by
  unfold parseInstruction
  rw [jsNormalize_idem]
